import Mathlib

/-!
Shallow embedding of `dicom.py`, a parser for DICOM medical-imaging files.

Modelling conventions:
* A byte stream (the `io.BufferedIOBase` cursor of the source) is a
  `List Nat`; a byte is a `Nat` (valid streams have every entry `< 256`,
  stated as a hypothesis where it matters).  The read call `f.read(n)`
  returns up to `n` bytes — fewer at end of stream — so it is embedded as
  `(s.take n, s.drop n)`: the short-read behaviour of the source is
  preserved exactly.
* The call `int.from_bytes(b, byteorder=little)` is `fromBytesLE`.
* The 2-byte value-representation code (`str(f.read(2), encoding=utf-8)`
  in the source) is modelled as the raw byte pair in the total reader, and
  membership in `VR_EXPLICIT_16BIT_VLF` compares against the ASCII
  encodings of the 21 codes.  The UnicodeDecodeError the source raises on
  VR bytes that are not valid UTF-8 is modelled faithfully by the
  error-aware reader (`vrDecodes`, `read_dataset_itemE`,
  `read_dataset_fuelE`, `read_datasetE`, `loadE`); whenever the
  error-aware reader succeeds it returns exactly what the total reader
  returns (`read_dataset_itemE_ok`, `read_dataset_fuelE_ok`), so
  invariants proved over the total reader cover every run of the source
  that returns a value.  Theorems quantifying over long-form VRs carry an
  ASCII hypothesis, under which the byte-pair model coincides with the
  decoded string.
* The class hierarchy `DataElement` / `ItemDataElement` /
  `ItemDelimitationElement` / `SequenceDelimitationElement` is a single
  inductive with an `EKind` discriminant; each `__init__` method becomes an
  `init` function performing the same undefined-length normalisation.
* The `while True` loop of `read_dataset`, combined with its recursion, is
  embedded with fuel; since every returned element consumes at least one
  byte of the stream, fuel `s.length + 1` never runs out
  (`read_dataset_fuel_congr` below shows the result is fuel-independent
  past that bound), so `read_dataset s = read_dataset_fuel (s.length + 1) s`
  is the exact semantics of the source.  `read_dataset` also returns the
  final cursor (the unconsumed suffix), which in the source is implicit in
  the advanced file object.
* File opening in `load` is embedded by passing the byte contents of the
  file explicitly; the successive reads walk that list.  The raised
  `InvalidDICOMFileException("invalid magic header")` becomes
  `Except.error "invalid magic header"`.
-/

/-- DICOM undefined length (`UNDEFINED_LENGTH = 0xffffffff`). -/
def UNDEFINED_LENGTH : Nat := 0xffffffff

/-- Little-endian unsigned decoding of a byte list, as in
`int.from_bytes(b, byteorder=little)`. -/
def fromBytesLE : List Nat → Nat
  | [] => 0
  | b :: bs => b + 256 * fromBytesLE bs

/-- The 21 value representations using an explicit 16-bit value length field
(`VR_EXPLICIT_16BIT_VLF`), as ASCII byte pairs: AE, AS, AT, CS, DA, DS, DT,
FL, FD, IS, LO, LT, PN, SH, SL, SS, ST, TM, UI, UL, US. -/
def VR_EXPLICIT_16BIT_VLF : List (List Nat) :=
  [[65, 69], [65, 83], [65, 84], [67, 83], [68, 65], [68, 83], [68, 84],
   [70, 76], [70, 68], [73, 83], [76, 79], [76, 84], [80, 78], [83, 72],
   [83, 76], [83, 83], [83, 84], [84, 77], [85, 73], [85, 76], [85, 83]]

/-- A DICOM data element tag (`ElementTag`): a (group, elem) pair; equality
is componentwise, as in `ElementTag.__eq__`. -/
structure ElementTag where
  group : Nat
  elem : Nat
deriving DecidableEq, Repr

/-- Discriminant for the four element classes of the source:
`DataElement` (generic), `ItemDataElement`, `ItemDelimitationElement`,
`SequenceDelimitationElement`. -/
inductive EKind where
  | generic
  | item
  | itemDelim
  | seqDelim
deriving DecidableEq, Repr

/-- A data element: the shared shape of the `DataElement` class of the
source and its three structural subclasses (tag, val_repr, val_length,
val_data, children), discriminated by `EKind`. -/
inductive DataElement : Type where
  | mk (kind : EKind) (tag : ElementTag) (val_repr : Option (List Nat))
       (val_length : Option Nat) (val_data : Option (List Nat))
       (children : List DataElement) : DataElement
deriving Repr

def DataElement.kind : DataElement → EKind
  | .mk k _ _ _ _ _ => k

def DataElement.tag : DataElement → ElementTag
  | .mk _ t _ _ _ _ => t

def DataElement.val_repr : DataElement → Option (List Nat)
  | .mk _ _ r _ _ _ => r

def DataElement.val_length : DataElement → Option Nat
  | .mk _ _ _ l _ _ => l

def DataElement.val_data : DataElement → Option (List Nat)
  | .mk _ _ _ _ d _ => d

def DataElement.children : DataElement → List DataElement
  | .mk _ _ _ _ _ c => c

/-- Constructor `DataElement.__init__`: stores the fields, normalising an
undefined-length sentinel to `none` (the source stores `val_length if
val_length != UNDEFINED_LENGTH else None`). -/
def DataElement.init (tag : ElementTag) (val_repr : List Nat)
    (val_length : Nat) (val_data : Option (List Nat))
    (children : List DataElement) : DataElement :=
  .mk .generic tag (some val_repr)
    (if val_length ≠ UNDEFINED_LENGTH then some val_length else none)
    val_data children

/-- Constructor `ItemDataElement.__init__`: fixed tag `(0xfffe, 0xe000)`,
no VR, same length normalisation. -/
def ItemDataElement.init (val_length : Nat) (val_data : Option (List Nat))
    (children : List DataElement) : DataElement :=
  .mk .item ⟨0xfffe, 0xe000⟩ none
    (if val_length ≠ UNDEFINED_LENGTH then some val_length else none)
    val_data children

/-- Constructor `ItemDelimitationElement.__init__`: fixed tag
`(0xfffe, 0xe00d)`. -/
def ItemDelimitationElement.init (val_length : Nat)
    (val_data : Option (List Nat)) (children : List DataElement) :
    DataElement :=
  .mk .itemDelim ⟨0xfffe, 0xe00d⟩ none
    (if val_length ≠ UNDEFINED_LENGTH then some val_length else none)
    val_data children

/-- Constructor `SequenceDelimitationElement.__init__`: fixed tag
`(0xfffe, 0xe0dd)`. -/
def SequenceDelimitationElement.init (val_length : Nat)
    (val_data : Option (List Nat)) (children : List DataElement) :
    DataElement :=
  .mk .seqDelim ⟨0xfffe, 0xe0dd⟩ none
    (if val_length ≠ UNDEFINED_LENGTH then some val_length else none)
    val_data children

/-- Method `DataElement.is_length_undefined`: true iff the stored
`val_length` is `None`. -/
def DataElement.is_length_undefined (e : DataElement) : Bool :=
  match e.val_length with
  | none => true
  | some _ => false

/-- Method `DataElement.add_children`: `self.children += children`. -/
def DataElement.add_children : DataElement → List DataElement → DataElement
  | .mk k t r l d cs, new => .mk k t r l d (cs ++ new)

/-- The loop-terminating test of `read_dataset`:
`isinstance(item, SequenceDelimitationElement) or isinstance(item,
ItemDelimitationElement)`. -/
def isDelimiter (e : DataElement) : Bool :=
  match e.kind with
  | .seqDelim => true
  | .itemDelim => true
  | _ => false

/-- Function `read_dataset_item(f)`: read a single dataset item from the
stream, returning the item (or `none` at end of stream) and the advanced
cursor. -/
def read_dataset_item (s : List Nat) : Option DataElement × List Nat :=
  -- tag_data = f.read(4); if not tag_data: return None
  let tag_data := s.take 4
  let s1 := s.drop 4
  if tag_data = [] then (none, s1)
  else
    let group_num := fromBytesLE (tag_data.take 2)
    let element_num := fromBytesLE ((tag_data.drop 2).take 2)
    if group_num = 0xfffe ∧ element_num = 0xe000 then
      -- Item element.
      let length := fromBytesLE (s1.take 4)
      let s2 := s1.drop 4
      if length ≠ UNDEFINED_LENGTH then
        (some (ItemDataElement.init length (some (s2.take length)) []),
         s2.drop length)
      else
        (some (ItemDataElement.init length none []), s2)
    else if group_num = 0xfffe ∧ element_num = 0xe00d then
      -- Item delimitation element.
      let length := fromBytesLE (s1.take 4)
      let s2 := s1.drop 4
      if length ≠ UNDEFINED_LENGTH then
        (some (ItemDelimitationElement.init length (some (s2.take length)) []),
         s2.drop length)
      else
        (some (ItemDelimitationElement.init length none []), s2)
    else if group_num = 0xfffe ∧ element_num = 0xe0dd then
      -- Sequence delimitation element.
      let length := fromBytesLE (s1.take 4)
      let s2 := s1.drop 4
      if length ≠ UNDEFINED_LENGTH then
        (some (SequenceDelimitationElement.init length
                (some (s2.take length)) []),
         s2.drop length)
      else
        (some (SequenceDelimitationElement.init length none []), s2)
    else
      -- value_repr = str(f.read(2), encoding=utf-8)
      let value_repr := s1.take 2
      let s2 := s1.drop 2
      if value_repr ∈ VR_EXPLICIT_16BIT_VLF then
        -- 16-bit length value.
        let length := fromBytesLE (s2.take 2)
        let s3 := s2.drop 2
        if length = UNDEFINED_LENGTH then
          (some (DataElement.init ⟨group_num, element_num⟩ value_repr length
                  none []), s3)
        else
          (some (DataElement.init ⟨group_num, element_num⟩ value_repr length
                  (some (s3.take length)) []), s3.drop length)
      else
        -- 32-bit length value; skip the two reserved bytes first.
        let s3 := s2.drop 2
        let length := fromBytesLE (s3.take 4)
        let s4 := s3.drop 4
        if length = UNDEFINED_LENGTH then
          (some (DataElement.init ⟨group_num, element_num⟩ value_repr length
                  none []), s4)
        else
          (some (DataElement.init ⟨group_num, element_num⟩ value_repr length
                  (some (s4.take length)) []), s4.drop length)

/-- The `while True` loop of `read_dataset(f)`, with explicit fuel (the loop
body appends the item, recursively reads children for undefined lengths, and
breaks on a delimitation element or end of stream). -/
def read_dataset_fuel : Nat → List Nat → List DataElement × List Nat
  | 0, s => ([], s)
  | fuel + 1, s =>
    match read_dataset_item s with
    | (none, s1) => ([], s1)
    | (some item, s1) =>
      if item.is_length_undefined then
        let r := read_dataset_fuel fuel s1
        let item2 := item.add_children r.1
        if isDelimiter item2 then ([item2], r.2)
        else
          let r2 := read_dataset_fuel fuel r.2
          (item2 :: r2.1, r2.2)
      else
        if isDelimiter item then ([item], s1)
        else
          let r2 := read_dataset_fuel fuel s1
          (item :: r2.1, r2.2)

/-- Function `read_dataset(f)`: recursively read the dataset, returning it
together with the final cursor.  Fuel `s.length + 1` is always sufficient:
every returned item consumes at least one byte (`read_dataset_item_lt` and
`read_dataset_fuel_congr` below). -/
def read_dataset (s : List Nat) : List DataElement × List Nat :=
  read_dataset_fuel (s.length + 1) s

/-- A DICOM file object (class `DICOM`): path, preamble and top-level
dataset. -/
structure DICOM where
  path : String
  preamble : List Nat
  dataset : List DataElement
deriving Repr

/-- Method `DICOM.find_elements_by_tag`: the accumulator loop over
`self.dataset` appending every item whose tag equals `tag`. -/
def DICOM.find_elements_by_tag (d : DICOM) (tag : ElementTag) :
    List DataElement :=
  d.dataset.foldl
    (fun elements item =>
      if item.tag = tag then elements ++ [item] else elements) []

/-- The four ASCII bytes of the magic marker `DICM`. -/
def DICM_MAGIC : List Nat := [68, 73, 67, 77]

/-- Function `load(path)`: read the 128-byte preamble and the 4 magic bytes,
fail on a bad magic header, otherwise read the dataset.  The byte contents
of the file are passed explicitly. -/
def load (path : String) (contents : List Nat) : Except String DICOM :=
  let preamble := contents.take 128
  let rest := contents.drop 128
  let magic := rest.take 4
  if magic ≠ DICM_MAGIC then
    .error "invalid magic header"
  else
    .ok ⟨path, preamble, (read_dataset (rest.drop 4)).1⟩

/-- Whether `str(b, encoding=utf-8)` succeeds on the at-most-2 bytes read
for a VR code: the empty read decodes to the empty string, a single byte
decodes iff it is ASCII, and two bytes decode iff both are ASCII or they
form one two-byte UTF-8 sequence. -/
def vrDecodes (b : List Nat) : Bool :=
  match b with
  | [] => true
  | [b0] => b0 < 128
  | [b0, b1] =>
      (b0 < 128 && b1 < 128) ||
        (0xc2 ≤ b0 && b0 ≤ 0xdf && 0x80 ≤ b1 && b1 ≤ 0xbf)
  | _ => false

/-- Error-aware variant of `read_dataset_item`: identical to it except that
the generic branch fails — modelling the UnicodeDecodeError the source
raises in `str(f.read(2), encoding=utf-8)` — when the 2 VR bytes are not
valid UTF-8. -/
def read_dataset_itemE (s : List Nat) :
    Except String (Option DataElement × List Nat) :=
  let tag_data := s.take 4
  let s1 := s.drop 4
  if tag_data = [] then .ok (none, s1)
  else
    let group_num := fromBytesLE (tag_data.take 2)
    let element_num := fromBytesLE ((tag_data.drop 2).take 2)
    if group_num = 0xfffe ∧ element_num = 0xe000 then
      let length := fromBytesLE (s1.take 4)
      let s2 := s1.drop 4
      if length ≠ UNDEFINED_LENGTH then
        .ok (some (ItemDataElement.init length (some (s2.take length)) []),
          s2.drop length)
      else
        .ok (some (ItemDataElement.init length none []), s2)
    else if group_num = 0xfffe ∧ element_num = 0xe00d then
      let length := fromBytesLE (s1.take 4)
      let s2 := s1.drop 4
      if length ≠ UNDEFINED_LENGTH then
        .ok (some (ItemDelimitationElement.init length
            (some (s2.take length)) []),
          s2.drop length)
      else
        .ok (some (ItemDelimitationElement.init length none []), s2)
    else if group_num = 0xfffe ∧ element_num = 0xe0dd then
      let length := fromBytesLE (s1.take 4)
      let s2 := s1.drop 4
      if length ≠ UNDEFINED_LENGTH then
        .ok (some (SequenceDelimitationElement.init length
            (some (s2.take length)) []),
          s2.drop length)
      else
        .ok (some (SequenceDelimitationElement.init length none []), s2)
    else
      let value_repr := s1.take 2
      if vrDecodes value_repr then
        let s2 := s1.drop 2
        if value_repr ∈ VR_EXPLICIT_16BIT_VLF then
          let length := fromBytesLE (s2.take 2)
          let s3 := s2.drop 2
          if length = UNDEFINED_LENGTH then
            .ok (some (DataElement.init ⟨group_num, element_num⟩ value_repr
                length none []), s3)
          else
            .ok (some (DataElement.init ⟨group_num, element_num⟩ value_repr
                length (some (s3.take length)) []), s3.drop length)
        else
          let s3 := s2.drop 2
          let length := fromBytesLE (s3.take 4)
          let s4 := s3.drop 4
          if length = UNDEFINED_LENGTH then
            .ok (some (DataElement.init ⟨group_num, element_num⟩ value_repr
                length none []), s4)
          else
            .ok (some (DataElement.init ⟨group_num, element_num⟩ value_repr
                length (some (s4.take length)) []), s4.drop length)
      else
        .error "invalid VR byte encoding"

/-- Error-aware variant of the `read_dataset` loop, propagating a VR decode
error. -/
def read_dataset_fuelE :
    Nat → List Nat → Except String (List DataElement × List Nat)
  | 0, s => .ok ([], s)
  | fuel + 1, s =>
    match read_dataset_itemE s with
    | .error msg => .error msg
    | .ok (none, s1) => .ok ([], s1)
    | .ok (some item, s1) =>
      if item.is_length_undefined then
        match read_dataset_fuelE fuel s1 with
        | .error msg => .error msg
        | .ok r =>
          let item2 := item.add_children r.1
          if isDelimiter item2 then .ok ([item2], r.2)
          else
            match read_dataset_fuelE fuel r.2 with
            | .error msg => .error msg
            | .ok r2 => .ok (item2 :: r2.1, r2.2)
      else
        if isDelimiter item then .ok ([item], s1)
        else
          match read_dataset_fuelE fuel s1 with
          | .error msg => .error msg
          | .ok r2 => .ok (item :: r2.1, r2.2)

/-- Error-aware `read_dataset`. -/
def read_datasetE (s : List Nat) :
    Except String (List DataElement × List Nat) :=
  read_dataset_fuelE (s.length + 1) s

/-- Error-aware `load`: besides the magic check, a VR decode error raised
inside the dataset read propagates and no DICOM value is returned. -/
def loadE (path : String) (contents : List Nat) : Except String DICOM :=
  let preamble := contents.take 128
  let rest := contents.drop 128
  let magic := rest.take 4
  if magic ≠ DICM_MAGIC then
    .error "invalid magic header"
  else
    match read_datasetE (rest.drop 4) with
    | .error msg => .error msg
    | .ok r => .ok ⟨path, preamble, r.1⟩

mutual

/-- All elements of a parsed tree rooted at one element: the element itself
and, recursively, every element nested in its children. -/
def DataElement.allElems : DataElement → List DataElement
  | .mk k t r l d cs => .mk k t r l d cs :: allElemsList cs

/-- All elements of a parsed forest, recursively. -/
def allElemsList : List DataElement → List DataElement
  | [] => []
  | e :: es => e.allElems ++ allElemsList es

end

/-- Whether a list of elements is non-empty and ends with an Item
Delimitation or Sequence Delimitation element. -/
def endsWithDelimiter (ds : List DataElement) : Bool :=
  match ds.getLast? with
  | some e => isDelimiter e
  | none => false

/-- Little-endian encoding of a 16-bit value. -/
def le16 (n : Nat) : List Nat := [n % 256, n / 256 % 256]

/-- Little-endian encoding of a 32-bit value. -/
def le32 (n : Nat) : List Nat :=
  [n % 256, n / 256 % 256, n / 65536 % 256, n / 16777216 % 256]

/-- The 4 tag bytes of an element: group then element number, each 2 bytes
little-endian. -/
def tagBytes (g e : Nat) : List Nat := le16 g ++ le16 e

/-- Concrete input stream: an undefined-length Item, its Item Delimitation,
then a Sequence Delimitation, followed by a stray byte. -/
def c1Stream : List Nat :=
  [0xfe, 0xff, 0x00, 0xe0, 0xff, 0xff, 0xff, 0xff,
   0xfe, 0xff, 0x0d, 0xe0, 0, 0, 0, 0,
   0xfe, 0xff, 0xdd, 0xe0, 0, 0, 0, 0, 99]

/-- The first element parsed from `c1Stream`: the Item with its delimiter as
its only child. -/
def c1Elem : DataElement :=
  .mk .item ⟨0xfffe, 0xe000⟩ none none none
    [.mk .itemDelim ⟨0xfffe, 0xe00d⟩ none (some 0) (some []) []]

/-- A file image with corrupted magic bytes (`XXXX`). -/
def c5BadFile : List Nat := List.replicate 128 0 ++ [88, 88, 88, 88]

/-- A file image with the correct magic bytes and an empty dataset. -/
def c5GoodFile : List Nat := List.replicate 128 0 ++ [68, 73, 67, 77]

/-- A file image with a good magic header whose first generic element has
the non-UTF-8 VR bytes `0xFF 0xFF`: the source raises UnicodeDecodeError
on it. -/
def c5BadVrFile : List Nat :=
  List.replicate 128 0 ++ [68, 73, 67, 77] ++ [1, 0, 1, 0, 255, 255]

/-- Concrete input stream holding a single short-VR (`UL`) element. -/
def c9Stream : List Nat := [8, 0, 0, 0, 85, 76, 2, 0, 5, 6]

/-- The element parsed from `c9Stream`. -/
def c9Elem : DataElement :=
  .mk .generic ⟨8, 0⟩ (some [85, 76]) (some 2) (some [5, 6]) []

theorem read_dataset_item_nil : read_dataset_item [] = (none, []) := rfl

theorem read_dataset_item_none {s t : List Nat}
    (h : read_dataset_item s = (none, t)) : s = [] ∧ t = [] := by
  by_cases hs : s = []
  · subst hs; exact ⟨rfl, by simpa [read_dataset_item_nil] using h.symm⟩
  · exfalso
    simp only [read_dataset_item] at h
    have : ¬ s.take 4 = [] := by simp [List.take_eq_nil_iff, hs]
    rw [if_neg this] at h
    split_ifs at h <;> simp_all

theorem read_dataset_item_lt {s : List Nat} {e : DataElement} {t : List Nat}
    (h : read_dataset_item s = (some e, t)) : t.length < s.length := by
  have hs : s ≠ [] := by
    intro hs; subst hs; simp [read_dataset_item_nil] at h
  have hlen : 0 < s.length := List.length_pos.mpr hs
  simp only [read_dataset_item] at h
  have htd : ¬ s.take 4 = [] := by simp [List.take_eq_nil_iff, hs]
  rw [if_neg htd] at h
  split_ifs at h <;>
    (injection h with h1 h2; subst h2) <;> simp [List.length_drop] <;> omega

theorem read_dataset_item_suffix (s : List Nat) :
    (read_dataset_item s).2 <:+ s := by
  by_cases hs : s = []
  · subst hs; simp [read_dataset_item_nil]
  · simp only [read_dataset_item]
    have htd : ¬ s.take 4 = [] := by simp [List.take_eq_nil_iff, hs]
    rw [if_neg htd]
    split_ifs <;> simp <;> exact List.drop_suffix _ _

theorem is_length_undefined_iff (e : DataElement) :
    e.is_length_undefined = true ↔ e.val_length = none := by
  cases h : e.val_length <;> simp [DataElement.is_length_undefined, h]

@[simp] theorem add_children_kind (e : DataElement) (cs : List DataElement) :
    (e.add_children cs).kind = e.kind := by
  cases e; rfl

@[simp] theorem add_children_tag (e : DataElement) (cs : List DataElement) :
    (e.add_children cs).tag = e.tag := by
  cases e; rfl

@[simp] theorem add_children_val_repr (e : DataElement)
    (cs : List DataElement) : (e.add_children cs).val_repr = e.val_repr := by
  cases e; rfl

@[simp] theorem add_children_val_length (e : DataElement)
    (cs : List DataElement) :
    (e.add_children cs).val_length = e.val_length := by
  cases e; rfl

@[simp] theorem add_children_val_data (e : DataElement)
    (cs : List DataElement) : (e.add_children cs).val_data = e.val_data := by
  cases e; rfl

@[simp] theorem add_children_children (e : DataElement)
    (cs : List DataElement) :
    (e.add_children cs).children = e.children ++ cs := by
  cases e; rfl

@[simp] theorem add_children_undefined (e : DataElement)
    (cs : List DataElement) :
    (e.add_children cs).is_length_undefined = e.is_length_undefined := by
  cases e; rfl

@[simp] theorem isDelimiter_add_children (e : DataElement)
    (cs : List DataElement) :
    isDelimiter (e.add_children cs) = isDelimiter e := by
  cases e; rfl

theorem read_dataset_item_children {s : List Nat} {e : DataElement}
    {t : List Nat} (h : read_dataset_item s = (some e, t)) :
    e.children = [] := by
  have hs : s ≠ [] := by
    intro hs; subst hs; simp [read_dataset_item_nil] at h
  simp only [read_dataset_item] at h
  have htd : ¬ s.take 4 = [] := by simp [List.take_eq_nil_iff, hs]
  rw [if_neg htd] at h
  split_ifs at h <;>
    (injection h with h1 h2; injection h1 with h1; subst h1) <;>
    simp [DataElement.init, ItemDataElement.init, ItemDelimitationElement.init,
      SequenceDelimitationElement.init, DataElement.children]

theorem read_dataset_item_not_sentinel {s : List Nat} {e : DataElement}
    {t : List Nat} (h : read_dataset_item s = (some e, t)) :
    e.val_length ≠ some UNDEFINED_LENGTH := by
  have hs : s ≠ [] := by
    intro hs; subst hs; simp [read_dataset_item_nil] at h
  simp only [read_dataset_item] at h
  have htd : ¬ s.take 4 = [] := by simp [List.take_eq_nil_iff, hs]
  rw [if_neg htd] at h
  split_ifs at h <;>
    (injection h with h1 h2; injection h1 with h1; subst h1) <;>
    simp_all [DataElement.init, ItemDataElement.init,
      ItemDelimitationElement.init, SequenceDelimitationElement.init,
      DataElement.val_length]

theorem read_dataset_fuel_nil (fuel : Nat) :
    read_dataset_fuel fuel [] = ([], []) := by
  cases fuel <;> rfl

theorem read_dataset_fuel_suffix (fuel : Nat) :
    ∀ s : List Nat, (read_dataset_fuel fuel s).2 <:+ s := by
  induction fuel with
  | zero => intro s; exact List.suffix_refl s
  | succ fuel ih =>
    intro s
    cases h : read_dataset_item s with
    | mk o t =>
      cases o with
      | none =>
        have := read_dataset_item_suffix s
        rw [h] at this
        simp only [read_dataset_fuel, h]
        simpa using this
      | some item =>
        have hts : t <:+ s := by
          have := read_dataset_item_suffix s
          rwa [h] at this
        simp only [read_dataset_fuel, h]
        split_ifs
        · exact (ih t).trans hts
        · exact ((ih ((read_dataset_fuel fuel t).2)).trans
            ((ih t).trans hts))
        · exact hts
        · exact (ih t).trans hts

theorem fromBytesLE_le16 (n : Nat) (h : n < 65536) :
    fromBytesLE (le16 n) = n := by
  simp [le16, fromBytesLE]; omega

theorem fromBytesLE_le32 (n : Nat) (h : n < 4294967296) :
    fromBytesLE (le32 n) = n := by
  simp [le32, fromBytesLE]; omega

theorem read_item_generic_short (g e len : Nat) (vr data rest : List Nat)
    (hg : g < 65536) (he : e < 65536)
    (hr1 : ¬(g = 0xfffe ∧ e = 0xe000)) (hr2 : ¬(g = 0xfffe ∧ e = 0xe00d))
    (hr3 : ¬(g = 0xfffe ∧ e = 0xe0dd))
    (hvr : vr ∈ VR_EXPLICIT_16BIT_VLF) (hlen : len < 65536)
    (hdata : data.length = len) :
    read_dataset_item (tagBytes g e ++ vr ++ le16 len ++ data ++ rest) =
      (some (DataElement.init ⟨g, e⟩ vr len (some data) []), rest) := by
  have hvr2 : vr.length = 2 := by fin_cases hvr <;> rfl
  rw [show tagBytes g e ++ vr ++ le16 len ++ data ++ rest =
      g % 256 :: g / 256 % 256 :: e % 256 :: e / 256 % 256 ::
        (vr ++ (le16 len ++ (data ++ rest))) from by simp [tagBytes, le16]]
  have htake4 : List.take 4 (g % 256 :: g / 256 % 256 :: e % 256 ::
      e / 256 % 256 :: (vr ++ (le16 len ++ (data ++ rest)))) =
      [g % 256, g / 256 % 256, e % 256, e / 256 % 256] := rfl
  have hdrop4 : List.drop 4 (g % 256 :: g / 256 % 256 :: e % 256 ::
      e / 256 % 256 :: (vr ++ (le16 len ++ (data ++ rest)))) =
      vr ++ (le16 len ++ (data ++ rest)) := rfl
  have hgroup : fromBytesLE (List.take 2
      [g % 256, g / 256 % 256, e % 256, e / 256 % 256]) = g := by
    show fromBytesLE [g % 256, g / 256 % 256] = g
    simp [fromBytesLE]; omega
  have helem : fromBytesLE (List.take 2 (List.drop 2
      [g % 256, g / 256 % 256, e % 256, e / 256 % 256])) = e := by
    show fromBytesLE [e % 256, e / 256 % 256] = e
    simp [fromBytesLE]; omega
  have hvreq : List.take 2 (vr ++ (le16 len ++ (data ++ rest))) = vr :=
    List.take_left' hvr2
  have hvrdrop : List.drop 2 (vr ++ (le16 len ++ (data ++ rest))) =
      le16 len ++ (data ++ rest) := List.drop_left' hvr2
  have hlen2 : fromBytesLE (List.take 2 (le16 len ++ (data ++ rest))) =
      len := by
    show fromBytesLE [len % 256, len / 256 % 256] = len
    simp [fromBytesLE]; omega
  have hlendrop : List.drop 2 (le16 len ++ (data ++ rest)) = data ++ rest :=
    rfl
  have hnund : ¬ (len = UNDEFINED_LENGTH) := by
    simp [UNDEFINED_LENGTH]; omega
  have hdtake : List.take len (data ++ rest) = data := List.take_left' hdata
  have hddrop : List.drop len (data ++ rest) = rest := List.drop_left' hdata
  simp only [read_dataset_item, htake4, hdrop4, hgroup, helem, hvreq,
    hvrdrop, hlen2, hlendrop, hdtake, hddrop, if_neg hr1, if_neg hr2,
    if_neg hr3, if_pos hvr, if_neg hnund]
  simp

theorem read_item_generic_long (g e len : Nat) (vr resv data rest : List Nat)
    (hg : g < 65536) (he : e < 65536)
    (hr1 : ¬(g = 0xfffe ∧ e = 0xe000)) (hr2 : ¬(g = 0xfffe ∧ e = 0xe00d))
    (hr3 : ¬(g = 0xfffe ∧ e = 0xe0dd))
    (hvr2 : vr.length = 2) (hvr : vr ∉ VR_EXPLICIT_16BIT_VLF)
    (hresv : resv.length = 2) (hlen : len < 4294967296)
    (hnund : len ≠ UNDEFINED_LENGTH) (hdata : data.length = len) :
    read_dataset_item
        (tagBytes g e ++ vr ++ resv ++ le32 len ++ data ++ rest) =
      (some (DataElement.init ⟨g, e⟩ vr len (some data) []), rest) := by
  rw [show tagBytes g e ++ vr ++ resv ++ le32 len ++ data ++ rest =
      g % 256 :: g / 256 % 256 :: e % 256 :: e / 256 % 256 ::
        (vr ++ (resv ++ (le32 len ++ (data ++ rest)))) from by
    simp [tagBytes, le16]]
  have htake4 : List.take 4 (g % 256 :: g / 256 % 256 :: e % 256 ::
      e / 256 % 256 :: (vr ++ (resv ++ (le32 len ++ (data ++ rest))))) =
      [g % 256, g / 256 % 256, e % 256, e / 256 % 256] := rfl
  have hdrop4 : List.drop 4 (g % 256 :: g / 256 % 256 :: e % 256 ::
      e / 256 % 256 :: (vr ++ (resv ++ (le32 len ++ (data ++ rest))))) =
      vr ++ (resv ++ (le32 len ++ (data ++ rest))) := rfl
  have hgroup : fromBytesLE (List.take 2
      [g % 256, g / 256 % 256, e % 256, e / 256 % 256]) = g := by
    show fromBytesLE [g % 256, g / 256 % 256] = g
    simp [fromBytesLE]; omega
  have helem : fromBytesLE (List.take 2 (List.drop 2
      [g % 256, g / 256 % 256, e % 256, e / 256 % 256])) = e := by
    show fromBytesLE [e % 256, e / 256 % 256] = e
    simp [fromBytesLE]; omega
  have hvreq : List.take 2 (vr ++ (resv ++ (le32 len ++ (data ++ rest)))) =
      vr := List.take_left' hvr2
  have hvrdrop : List.drop 2 (vr ++ (resv ++ (le32 len ++ (data ++ rest)))) =
      resv ++ (le32 len ++ (data ++ rest)) := List.drop_left' hvr2
  have hresvdrop : List.drop 2 (resv ++ (le32 len ++ (data ++ rest))) =
      le32 len ++ (data ++ rest) := List.drop_left' hresv
  have hlen4 : fromBytesLE (List.take 4 (le32 len ++ (data ++ rest))) =
      len := by
    show fromBytesLE [len % 256, len / 256 % 256, len / 65536 % 256,
      len / 16777216 % 256] = len
    simp [fromBytesLE]; omega
  have hlendrop : List.drop 4 (le32 len ++ (data ++ rest)) = data ++ rest :=
    rfl
  have hdtake : List.take len (data ++ rest) = data := List.take_left' hdata
  have hddrop : List.drop len (data ++ rest) = rest := List.drop_left' hdata
  simp only [read_dataset_item, htake4, hdrop4, hgroup, helem, hvreq,
    hvrdrop, hresvdrop, hlen4, hlendrop, hdtake, hddrop, if_neg hr1,
    if_neg hr2, if_neg hr3, if_neg hvr, if_neg hnund]
  simp

theorem read_item_generic_long_undef (g e : Nat) (vr resv rest : List Nat)
    (hg : g < 65536) (he : e < 65536)
    (hr1 : ¬(g = 0xfffe ∧ e = 0xe000)) (hr2 : ¬(g = 0xfffe ∧ e = 0xe00d))
    (hr3 : ¬(g = 0xfffe ∧ e = 0xe0dd))
    (hvr2 : vr.length = 2) (hvr : vr ∉ VR_EXPLICIT_16BIT_VLF)
    (hresv : resv.length = 2) :
    read_dataset_item
        (tagBytes g e ++ vr ++ resv ++ le32 UNDEFINED_LENGTH ++ rest) =
      (some (DataElement.init ⟨g, e⟩ vr UNDEFINED_LENGTH none []), rest) := by
  rw [show tagBytes g e ++ vr ++ resv ++ le32 UNDEFINED_LENGTH ++ rest =
      g % 256 :: g / 256 % 256 :: e % 256 :: e / 256 % 256 ::
        (vr ++ (resv ++ (le32 UNDEFINED_LENGTH ++ rest))) from by
    simp [tagBytes, le16]]
  have htake4 : List.take 4 (g % 256 :: g / 256 % 256 :: e % 256 ::
      e / 256 % 256 :: (vr ++ (resv ++ (le32 UNDEFINED_LENGTH ++ rest)))) =
      [g % 256, g / 256 % 256, e % 256, e / 256 % 256] := rfl
  have hdrop4 : List.drop 4 (g % 256 :: g / 256 % 256 :: e % 256 ::
      e / 256 % 256 :: (vr ++ (resv ++ (le32 UNDEFINED_LENGTH ++ rest)))) =
      vr ++ (resv ++ (le32 UNDEFINED_LENGTH ++ rest)) := rfl
  have hgroup : fromBytesLE (List.take 2
      [g % 256, g / 256 % 256, e % 256, e / 256 % 256]) = g := by
    show fromBytesLE [g % 256, g / 256 % 256] = g
    simp [fromBytesLE]; omega
  have helem : fromBytesLE (List.take 2 (List.drop 2
      [g % 256, g / 256 % 256, e % 256, e / 256 % 256])) = e := by
    show fromBytesLE [e % 256, e / 256 % 256] = e
    simp [fromBytesLE]; omega
  have hvreq : List.take 2
      (vr ++ (resv ++ (le32 UNDEFINED_LENGTH ++ rest))) = vr :=
    List.take_left' hvr2
  have hvrdrop : List.drop 2
      (vr ++ (resv ++ (le32 UNDEFINED_LENGTH ++ rest))) =
      resv ++ (le32 UNDEFINED_LENGTH ++ rest) := List.drop_left' hvr2
  have hresvdrop : List.drop 2 (resv ++ (le32 UNDEFINED_LENGTH ++ rest)) =
      le32 UNDEFINED_LENGTH ++ rest := List.drop_left' hresv
  have hlen4 : fromBytesLE (List.take 4 (le32 UNDEFINED_LENGTH ++ rest)) =
      UNDEFINED_LENGTH := by
    show fromBytesLE [UNDEFINED_LENGTH % 256, UNDEFINED_LENGTH / 256 % 256,
      UNDEFINED_LENGTH / 65536 % 256, UNDEFINED_LENGTH / 16777216 % 256] =
      UNDEFINED_LENGTH
    simp [fromBytesLE, UNDEFINED_LENGTH]
  have hlendrop : List.drop 4 (le32 UNDEFINED_LENGTH ++ rest) = rest := rfl
  simp only [read_dataset_item, htake4, hdrop4, hgroup, helem, hvreq,
    hvrdrop, hresvdrop, hlen4, hlendrop, if_neg hr1, if_neg hr2, if_neg hr3,
    if_neg hvr, if_pos rfl]
  simp

theorem read_item_item_defined (len : Nat) (data rest : List Nat)
    (hlen : len < 4294967296) (hnund : len ≠ UNDEFINED_LENGTH)
    (hdata : data.length = len) :
    read_dataset_item (tagBytes 0xfffe 0xe000 ++ le32 len ++ data ++ rest) =
      (some (ItemDataElement.init len (some data) []), rest) := by
  rw [show tagBytes 0xfffe 0xe000 ++ le32 len ++ data ++ rest =
      254 :: 255 :: 0 :: 224 :: (len % 256 :: len / 256 % 256 ::
        len / 65536 % 256 :: len / 16777216 % 256 :: (data ++ rest)) from by
    simp [tagBytes, le16, le32]]
  have h1 : List.take 4 (254 :: 255 :: 0 :: 224 :: (len % 256 ::
      len / 256 % 256 :: len / 65536 % 256 :: len / 16777216 % 256 ::
      (data ++ rest))) = [254, 255, 0, 224] := rfl
  have h2 : List.drop 4 (254 :: 255 :: 0 :: 224 :: (len % 256 ::
      len / 256 % 256 :: len / 65536 % 256 :: len / 16777216 % 256 ::
      (data ++ rest))) = len % 256 :: len / 256 % 256 ::
      len / 65536 % 256 :: len / 16777216 % 256 :: (data ++ rest) := rfl
  have hg : fromBytesLE (List.take 2 [254, 255, 0, 224]) = 65534 := rfl
  have he : fromBytesLE (List.take 2 (List.drop 2 [254, 255, 0, 224])) =
      57344 := rfl
  have hlen4 : fromBytesLE (List.take 4 (len % 256 :: len / 256 % 256 ::
      len / 65536 % 256 :: len / 16777216 % 256 :: (data ++ rest))) =
      len := by
    show fromBytesLE [len % 256, len / 256 % 256, len / 65536 % 256,
      len / 16777216 % 256] = len
    simp [fromBytesLE]; omega
  have hl2 : List.drop 4 (len % 256 :: len / 256 % 256 ::
      len / 65536 % 256 :: len / 16777216 % 256 :: (data ++ rest)) =
      data ++ rest := rfl
  have hdtake : List.take len (data ++ rest) = data := List.take_left' hdata
  have hddrop : List.drop len (data ++ rest) = rest := List.drop_left' hdata
  simp only [read_dataset_item, h1, h2, hg, he, hlen4, hl2, hdtake, hddrop]
  simp [hnund]

theorem read_item_item_undef (rest : List Nat) :
    read_dataset_item
        (tagBytes 0xfffe 0xe000 ++ le32 UNDEFINED_LENGTH ++ rest) =
      (some (ItemDataElement.init UNDEFINED_LENGTH none []), rest) := by
  rw [show tagBytes 0xfffe 0xe000 ++ le32 UNDEFINED_LENGTH ++ rest =
      254 :: 255 :: 0 :: 224 :: (255 :: 255 :: 255 :: 255 :: rest) from by
    simp [tagBytes, le16, le32, UNDEFINED_LENGTH]]
  have h1 : List.take 4 (254 :: 255 :: 0 :: 224 ::
      (255 :: 255 :: 255 :: 255 :: rest)) = [254, 255, 0, 224] := rfl
  have h2 : List.drop 4 (254 :: 255 :: 0 :: 224 ::
      (255 :: 255 :: 255 :: 255 :: rest)) =
      255 :: 255 :: 255 :: 255 :: rest := rfl
  have hg : fromBytesLE (List.take 2 [254, 255, 0, 224]) = 65534 := rfl
  have he : fromBytesLE (List.take 2 (List.drop 2 [254, 255, 0, 224])) =
      57344 := rfl
  have hlen4 : fromBytesLE (List.take 4 (255 :: 255 :: 255 :: 255 :: rest)) =
      UNDEFINED_LENGTH := by
    show fromBytesLE [255, 255, 255, 255] = UNDEFINED_LENGTH
    rfl
  have hl2 : List.drop 4 (255 :: 255 :: 255 :: 255 :: rest) = rest := rfl
  simp only [read_dataset_item, h1, h2, hg, he, hlen4, hl2]
  simp

theorem read_item_itemDelim_defined (len : Nat) (data rest : List Nat)
    (hlen : len < 4294967296) (hnund : len ≠ UNDEFINED_LENGTH)
    (hdata : data.length = len) :
    read_dataset_item (tagBytes 0xfffe 0xe00d ++ le32 len ++ data ++ rest) =
      (some (ItemDelimitationElement.init len (some data) []), rest) := by
  rw [show tagBytes 0xfffe 0xe00d ++ le32 len ++ data ++ rest =
      254 :: 255 :: 13 :: 224 :: (len % 256 :: len / 256 % 256 ::
        len / 65536 % 256 :: len / 16777216 % 256 :: (data ++ rest)) from by
    simp [tagBytes, le16, le32]]
  have h1 : List.take 4 (254 :: 255 :: 13 :: 224 :: (len % 256 ::
      len / 256 % 256 :: len / 65536 % 256 :: len / 16777216 % 256 ::
      (data ++ rest))) = [254, 255, 13, 224] := rfl
  have h2 : List.drop 4 (254 :: 255 :: 13 :: 224 :: (len % 256 ::
      len / 256 % 256 :: len / 65536 % 256 :: len / 16777216 % 256 ::
      (data ++ rest))) = len % 256 :: len / 256 % 256 ::
      len / 65536 % 256 :: len / 16777216 % 256 :: (data ++ rest) := rfl
  have hg : fromBytesLE (List.take 2 [254, 255, 13, 224]) = 65534 := rfl
  have he : fromBytesLE (List.take 2 (List.drop 2 [254, 255, 13, 224])) =
      57357 := rfl
  have hlen4 : fromBytesLE (List.take 4 (len % 256 :: len / 256 % 256 ::
      len / 65536 % 256 :: len / 16777216 % 256 :: (data ++ rest))) =
      len := by
    show fromBytesLE [len % 256, len / 256 % 256, len / 65536 % 256,
      len / 16777216 % 256] = len
    simp [fromBytesLE]; omega
  have hl2 : List.drop 4 (len % 256 :: len / 256 % 256 ::
      len / 65536 % 256 :: len / 16777216 % 256 :: (data ++ rest)) =
      data ++ rest := rfl
  have hdtake : List.take len (data ++ rest) = data := List.take_left' hdata
  have hddrop : List.drop len (data ++ rest) = rest := List.drop_left' hdata
  simp only [read_dataset_item, h1, h2, hg, he, hlen4, hl2, hdtake, hddrop]
  simp [hnund]

theorem read_item_itemDelim_undef (rest : List Nat) :
    read_dataset_item
        (tagBytes 0xfffe 0xe00d ++ le32 UNDEFINED_LENGTH ++ rest) =
      (some (ItemDelimitationElement.init UNDEFINED_LENGTH none []),
        rest) := by
  rw [show tagBytes 0xfffe 0xe00d ++ le32 UNDEFINED_LENGTH ++ rest =
      254 :: 255 :: 13 :: 224 :: (255 :: 255 :: 255 :: 255 :: rest) from by
    simp [tagBytes, le16, le32, UNDEFINED_LENGTH]]
  have h1 : List.take 4 (254 :: 255 :: 13 :: 224 ::
      (255 :: 255 :: 255 :: 255 :: rest)) = [254, 255, 13, 224] := rfl
  have h2 : List.drop 4 (254 :: 255 :: 13 :: 224 ::
      (255 :: 255 :: 255 :: 255 :: rest)) =
      255 :: 255 :: 255 :: 255 :: rest := rfl
  have hg : fromBytesLE (List.take 2 [254, 255, 13, 224]) = 65534 := rfl
  have he : fromBytesLE (List.take 2 (List.drop 2 [254, 255, 13, 224])) =
      57357 := rfl
  have hlen4 : fromBytesLE (List.take 4 (255 :: 255 :: 255 :: 255 :: rest)) =
      UNDEFINED_LENGTH := by
    show fromBytesLE [255, 255, 255, 255] = UNDEFINED_LENGTH
    rfl
  have hl2 : List.drop 4 (255 :: 255 :: 255 :: 255 :: rest) = rest := rfl
  simp only [read_dataset_item, h1, h2, hg, he, hlen4, hl2]
  simp

theorem read_item_seqDelim_defined (len : Nat) (data rest : List Nat)
    (hlen : len < 4294967296) (hnund : len ≠ UNDEFINED_LENGTH)
    (hdata : data.length = len) :
    read_dataset_item (tagBytes 0xfffe 0xe0dd ++ le32 len ++ data ++ rest) =
      (some (SequenceDelimitationElement.init len (some data) []), rest) := by
  rw [show tagBytes 0xfffe 0xe0dd ++ le32 len ++ data ++ rest =
      254 :: 255 :: 221 :: 224 :: (len % 256 :: len / 256 % 256 ::
        len / 65536 % 256 :: len / 16777216 % 256 :: (data ++ rest)) from by
    simp [tagBytes, le16, le32]]
  have h1 : List.take 4 (254 :: 255 :: 221 :: 224 :: (len % 256 ::
      len / 256 % 256 :: len / 65536 % 256 :: len / 16777216 % 256 ::
      (data ++ rest))) = [254, 255, 221, 224] := rfl
  have h2 : List.drop 4 (254 :: 255 :: 221 :: 224 :: (len % 256 ::
      len / 256 % 256 :: len / 65536 % 256 :: len / 16777216 % 256 ::
      (data ++ rest))) = len % 256 :: len / 256 % 256 ::
      len / 65536 % 256 :: len / 16777216 % 256 :: (data ++ rest) := rfl
  have hg : fromBytesLE (List.take 2 [254, 255, 221, 224]) = 65534 := rfl
  have he : fromBytesLE (List.take 2 (List.drop 2 [254, 255, 221, 224])) =
      57565 := rfl
  have hlen4 : fromBytesLE (List.take 4 (len % 256 :: len / 256 % 256 ::
      len / 65536 % 256 :: len / 16777216 % 256 :: (data ++ rest))) =
      len := by
    show fromBytesLE [len % 256, len / 256 % 256, len / 65536 % 256,
      len / 16777216 % 256] = len
    simp [fromBytesLE]; omega
  have hl2 : List.drop 4 (len % 256 :: len / 256 % 256 ::
      len / 65536 % 256 :: len / 16777216 % 256 :: (data ++ rest)) =
      data ++ rest := rfl
  have hdtake : List.take len (data ++ rest) = data := List.take_left' hdata
  have hddrop : List.drop len (data ++ rest) = rest := List.drop_left' hdata
  simp only [read_dataset_item, h1, h2, hg, he, hlen4, hl2, hdtake, hddrop]
  simp [hnund]

theorem read_item_seqDelim_undef (rest : List Nat) :
    read_dataset_item
        (tagBytes 0xfffe 0xe0dd ++ le32 UNDEFINED_LENGTH ++ rest) =
      (some (SequenceDelimitationElement.init UNDEFINED_LENGTH none []),
        rest) := by
  rw [show tagBytes 0xfffe 0xe0dd ++ le32 UNDEFINED_LENGTH ++ rest =
      254 :: 255 :: 221 :: 224 :: (255 :: 255 :: 255 :: 255 :: rest) from by
    simp [tagBytes, le16, le32, UNDEFINED_LENGTH]]
  have h1 : List.take 4 (254 :: 255 :: 221 :: 224 ::
      (255 :: 255 :: 255 :: 255 :: rest)) = [254, 255, 221, 224] := rfl
  have h2 : List.drop 4 (254 :: 255 :: 221 :: 224 ::
      (255 :: 255 :: 255 :: 255 :: rest)) =
      255 :: 255 :: 255 :: 255 :: rest := rfl
  have hg : fromBytesLE (List.take 2 [254, 255, 221, 224]) = 65534 := rfl
  have he : fromBytesLE (List.take 2 (List.drop 2 [254, 255, 221, 224])) =
      57565 := rfl
  have hlen4 : fromBytesLE (List.take 4 (255 :: 255 :: 255 :: 255 :: rest)) =
      UNDEFINED_LENGTH := by
    show fromBytesLE [255, 255, 255, 255] = UNDEFINED_LENGTH
    rfl
  have hl2 : List.drop 4 (255 :: 255 :: 255 :: 255 :: rest) = rest := rfl
  simp only [read_dataset_item, h1, h2, hg, he, hlen4, hl2]
  simp

theorem read_dataset_fuel_congr :
    ∀ n f₁ f₂ s, s.length ≤ n → s.length < f₁ → s.length < f₂ →
      read_dataset_fuel f₁ s = read_dataset_fuel f₂ s := by
  intro n
  induction n with
  | zero =>
    intro f₁ f₂ s hn h1 h2
    have hs : s = [] := List.length_eq_zero.mp (Nat.le_zero.mp hn)
    subst hs
    rw [read_dataset_fuel_nil, read_dataset_fuel_nil]
  | succ n ih =>
    intro f₁ f₂ s hn h1 h2
    cases f₁ with
    | zero => omega
    | succ f₁ =>
      cases f₂ with
      | zero => omega
      | succ f₂ =>
        cases hi : read_dataset_item s with
        | mk o t =>
          cases o with
          | none => simp only [read_dataset_fuel, hi]
          | some item =>
            have hlt : t.length < s.length := read_dataset_item_lt hi
            have ht1 : read_dataset_fuel f₁ t = read_dataset_fuel f₂ t :=
              ih f₁ f₂ t (by omega) (by omega) (by omega)
            have hsuf := (read_dataset_fuel_suffix f₂ t).length_le
            have ht2 : read_dataset_fuel f₁ (read_dataset_fuel f₂ t).2 =
                read_dataset_fuel f₂ (read_dataset_fuel f₂ t).2 :=
              ih f₁ f₂ _ (by omega) (by omega) (by omega)
            simp only [read_dataset_fuel, hi, ht1, ht2]

theorem allElems_def (e : DataElement) :
    e.allElems = e :: allElemsList e.children := by
  cases e; rfl

theorem allElemsList_nil : allElemsList [] = [] := rfl

theorem allElemsList_cons (e : DataElement) (es : List DataElement) :
    allElemsList (e :: es) = e.allElems ++ allElemsList es := rfl

theorem endsWithDelimiter_singleton (e : DataElement) :
    endsWithDelimiter [e] = isDelimiter e := by
  simp [endsWithDelimiter]

theorem endsWithDelimiter_cons {l : List DataElement} (x : DataElement)
    (h : endsWithDelimiter l = true) :
    endsWithDelimiter (x :: l) = true := by
  cases l with
  | nil => simp [endsWithDelimiter] at h
  | cons y ys =>
    simp only [endsWithDelimiter] at h ⊢
    rwa [List.getLast?_cons_cons]

theorem endsWithDelimiter_ne_nil {l : List DataElement}
    (h : endsWithDelimiter l = true) : l ≠ [] := by
  intro hl; subst hl; simp [endsWithDelimiter] at h

theorem read_dataset_fuel_endsDelim :
    ∀ fuel s, s.length < fuel →
      endsWithDelimiter (read_dataset_fuel fuel s).1 = true ∨
        (read_dataset_fuel fuel s).2 = [] := by
  intro fuel
  induction fuel with
  | zero => intro s h; omega
  | succ fuel ih =>
    intro s hf
    cases hi : read_dataset_item s with
    | mk o t =>
      cases o with
      | none =>
        right
        simp only [read_dataset_fuel, hi]
        exact (read_dataset_item_none hi).2
      | some item =>
        have hlt := read_dataset_item_lt hi
        simp only [read_dataset_fuel, hi]
        by_cases h1 : item.is_length_undefined = true
        · rw [if_pos h1]
          by_cases h2 :
              isDelimiter (item.add_children (read_dataset_fuel fuel t).1) =
                true
          · rw [if_pos h2]
            left
            simpa [endsWithDelimiter_singleton] using h2
          · rw [if_neg h2]
            have hsuf := (read_dataset_fuel_suffix fuel t).length_le
            rcases ih (read_dataset_fuel fuel t).2 (by omega) with hd | hnil
            · left
              exact endsWithDelimiter_cons _ hd
            · right; exact hnil
        · rw [if_neg h1]
          by_cases h3 : isDelimiter item = true
          · rw [if_pos h3]
            left
            simpa [endsWithDelimiter_singleton] using h3
          · rw [if_neg h3]
            rcases ih t (by omega) with hd | hnil
            · left
              exact endsWithDelimiter_cons _ hd
            · right; exact hnil

theorem read_dataset_fuel_undef_children :
    ∀ fuel s, s.length < fuel →
      ∀ e ∈ allElemsList (read_dataset_fuel fuel s).1,
        e.is_length_undefined = true →
          endsWithDelimiter e.children = true ∨
            ∃ u, u <:+ s ∧ read_dataset u = (e.children, []) := by
  intro fuel
  induction fuel with
  | zero => intro s h; omega
  | succ fuel ih =>
    intro s hf e he hu
    rcases hi : read_dataset_item s with ⟨o, t⟩
    cases o with
    | none =>
      simp only [read_dataset_fuel, hi] at he
      simp [allElemsList_nil] at he
    | some item =>
      have hlt := read_dataset_item_lt hi
      have hch := read_dataset_item_children hi
      have hts : t <:+ s := by
        have := read_dataset_item_suffix s
        rwa [hi] at this
      have hsuf := (read_dataset_fuel_suffix fuel t).length_le
      have hts2 : (read_dataset_fuel fuel t).2 <:+ s :=
        (read_dataset_fuel_suffix fuel t).trans hts
      have hconv : read_dataset_fuel fuel t = read_dataset t :=
        read_dataset_fuel_congr t.length fuel (t.length + 1) t
          (le_refl _) (by omega) (by omega)
      simp only [read_dataset_fuel, hi] at he
      by_cases h1 : item.is_length_undefined = true
      · rw [if_pos h1] at he
        by_cases h2 :
            isDelimiter (item.add_children (read_dataset_fuel fuel t).1) =
              true
        · rw [if_pos h2] at he
          simp only [allElemsList_cons, allElemsList_nil, List.append_nil,
            allElems_def, add_children_children, hch,
            List.nil_append] at he
          rcases List.mem_cons.mp he with rfl | hmem
          · rcases read_dataset_fuel_endsDelim fuel t (by omega) with
              hd | hnil
            · left
              simpa [add_children_children, hch] using hd
            · right
              refine ⟨t, hts, ?_⟩
              rw [add_children_children, hch, List.nil_append, ← hconv,
                ← hnil]
          · rcases ih t (by omega) e hmem hu with hd | ⟨u, hu1, hu2⟩
            · left; exact hd
            · right; exact ⟨u, hu1.trans hts, hu2⟩
        · rw [if_neg h2] at he
          simp only [allElemsList_cons, allElems_def,
            add_children_children, hch, List.nil_append,
            List.mem_append, List.mem_cons] at he
          rcases he with (rfl | hmem) | hmem
          · rcases read_dataset_fuel_endsDelim fuel t (by omega) with
              hd | hnil
            · left
              simpa [add_children_children, hch] using hd
            · right
              refine ⟨t, hts, ?_⟩
              rw [add_children_children, hch, List.nil_append, ← hconv,
                ← hnil]
          · rcases ih t (by omega) e (by simpa using hmem) hu with
              hd | ⟨u, hu1, hu2⟩
            · left; exact hd
            · right; exact ⟨u, hu1.trans hts, hu2⟩
          · rcases ih (read_dataset_fuel fuel t).2 (by omega) e hmem hu with
              hd | ⟨u, hu1, hu2⟩
            · left; exact hd
            · right; exact ⟨u, hu1.trans hts2, hu2⟩
      · rw [if_neg h1] at he
        by_cases h3 : isDelimiter item = true
        · rw [if_pos h3] at he
          simp only [allElemsList_cons, allElemsList_nil, List.append_nil,
            allElems_def, hch, List.nil_append] at he
          rcases List.mem_cons.mp he with rfl | hmem
          · exact absurd hu h1
          · simp [allElemsList_nil] at hmem
        · rw [if_neg h3] at he
          simp only [allElemsList_cons, allElems_def, hch,
            List.nil_append, List.mem_append, List.mem_cons,
            allElemsList_nil] at he
          rcases he with (rfl | hmem) | hmem
          · exact absurd hu h1
          · simp at hmem
          · rcases ih t (by omega) e hmem hu with hd | ⟨u, hu1, hu2⟩
            · left; exact hd
            · right; exact ⟨u, hu1.trans hts, hu2⟩

theorem read_dataset_fuel_origin :
    ∀ fuel s, s.length < fuel →
      ∀ e ∈ allElemsList (read_dataset_fuel fuel s).1,
        ∃ s₀ e₀ t₀, s₀ <:+ s ∧ read_dataset_item s₀ = (some e₀, t₀) ∧
          (e = e₀ ∨ (e₀.is_length_undefined = true ∧
            ∃ cs, e = e₀.add_children cs)) := by
  intro fuel
  induction fuel with
  | zero => intro s h; omega
  | succ fuel ih =>
    intro s hf e he
    rcases hi : read_dataset_item s with ⟨o, t⟩
    cases o with
    | none =>
      simp only [read_dataset_fuel, hi] at he
      simp [allElemsList_nil] at he
    | some item =>
      have hlt := read_dataset_item_lt hi
      have hch := read_dataset_item_children hi
      have hts : t <:+ s := by
        have := read_dataset_item_suffix s
        rwa [hi] at this
      have hsuf := (read_dataset_fuel_suffix fuel t).length_le
      have hts2 : (read_dataset_fuel fuel t).2 <:+ s :=
        (read_dataset_fuel_suffix fuel t).trans hts
      simp only [read_dataset_fuel, hi] at he
      by_cases h1 : item.is_length_undefined = true
      · rw [if_pos h1] at he
        by_cases h2 :
            isDelimiter (item.add_children (read_dataset_fuel fuel t).1) =
              true
        · rw [if_pos h2] at he
          simp only [allElemsList_cons, allElemsList_nil, List.append_nil,
            allElems_def, add_children_children, hch,
            List.nil_append] at he
          rcases List.mem_cons.mp he with rfl | hmem
          · exact ⟨s, item, t, List.suffix_refl s, hi,
              Or.inr ⟨h1, _, rfl⟩⟩
          · obtain ⟨s₀, e₀, t₀, hsfx, hread, horig⟩ :=
              ih t (by omega) e hmem
            exact ⟨s₀, e₀, t₀, hsfx.trans hts, hread, horig⟩
        · rw [if_neg h2] at he
          simp only [allElemsList_cons, allElems_def,
            add_children_children, hch, List.nil_append,
            List.mem_append, List.mem_cons] at he
          rcases he with (rfl | hmem) | hmem
          · exact ⟨s, item, t, List.suffix_refl s, hi,
              Or.inr ⟨h1, _, rfl⟩⟩
          · obtain ⟨s₀, e₀, t₀, hsfx, hread, horig⟩ :=
              ih t (by omega) e (by simpa using hmem)
            exact ⟨s₀, e₀, t₀, hsfx.trans hts, hread, horig⟩
          · obtain ⟨s₀, e₀, t₀, hsfx, hread, horig⟩ :=
              ih (read_dataset_fuel fuel t).2 (by omega) e hmem
            exact ⟨s₀, e₀, t₀, hsfx.trans hts2, hread, horig⟩
      · rw [if_neg h1] at he
        by_cases h3 : isDelimiter item = true
        · rw [if_pos h3] at he
          simp only [allElemsList_cons, allElemsList_nil, List.append_nil,
            allElems_def, hch, List.nil_append] at he
          rcases List.mem_cons.mp he with rfl | hmem
          · exact ⟨s, e, t, List.suffix_refl s, hi, Or.inl rfl⟩
          · simp [allElemsList_nil] at hmem
        · rw [if_neg h3] at he
          simp only [allElemsList_cons, allElems_def, hch,
            List.nil_append, List.mem_append, List.mem_cons,
            allElemsList_nil] at he
          rcases he with (rfl | hmem) | hmem
          · exact ⟨s, e, t, List.suffix_refl s, hi, Or.inl rfl⟩
          · simp at hmem
          · obtain ⟨s₀, e₀, t₀, hsfx, hread, horig⟩ :=
              ih t (by omega) e hmem
            exact ⟨s₀, e₀, t₀, hsfx.trans hts, hread, horig⟩

theorem fromBytesLE_lt : ∀ l : List Nat, (∀ b ∈ l, b < 256) →
    fromBytesLE l < 256 ^ l.length := by
  intro l
  induction l with
  | nil => intro _; simp [fromBytesLE]
  | cons b bs ih =>
    intro hb
    have h1 : b < 256 := hb b (List.mem_cons_self b bs)
    have h2 : fromBytesLE bs < 256 ^ bs.length :=
      ih fun x hx => hb x (List.mem_cons_of_mem b hx)
    simp only [fromBytesLE, List.length_cons, pow_succ]
    calc b + 256 * fromBytesLE bs
        < 256 + 256 * fromBytesLE bs := by omega
      _ ≤ 256 * 256 ^ bs.length := by nlinarith
      _ = 256 ^ bs.length * 256 := by ring

theorem take2_lt (s : List Nat) (hb : ∀ b ∈ s, b < 256) :
    fromBytesLE (s.take 2) < 65536 := by
  have h := fromBytesLE_lt (s.take 2)
    (fun b hbm => hb b (List.mem_of_mem_take hbm))
  have hlen : (s.take 2).length ≤ 2 := by
    simp [List.length_take]
  calc fromBytesLE (s.take 2) < 256 ^ (s.take 2).length := h
    _ ≤ 256 ^ 2 := Nat.pow_le_pow_right (by omega) hlen
    _ = 65536 := by norm_num

theorem read_dataset_item_short_vr {s : List Nat} {e : DataElement}
    {t : List Nat} (hb : ∀ b ∈ s, b < 256)
    (h : read_dataset_item s = (some e, t)) {vr : List Nat}
    (hvr : e.val_repr = some vr) (hmem : vr ∈ VR_EXPLICIT_16BIT_VLF) :
    e.val_length.isSome ∧ e.val_data.isSome ∧ e.children = [] := by
  have hs : s ≠ [] := by
    intro hs; subst hs; simp [read_dataset_item_nil] at h
  simp only [read_dataset_item] at h
  have htd : ¬ s.take 4 = [] := by simp [List.take_eq_nil_iff, hs]
  rw [if_neg htd] at h
  have hbound : fromBytesLE ((s.drop 6).take 2) < 65536 :=
    take2_lt _ fun b hbm => hb b (List.mem_of_mem_drop hbm)
  split_ifs at h <;>
      (injection h with hx hy; injection hx with hx; subst hx) <;>
      (try simp only [DataElement.init, ItemDataElement.init,
        ItemDelimitationElement.init, SequenceDelimitationElement.init,
        DataElement.val_repr] at hvr) <;>
      simp_all [UNDEFINED_LENGTH, List.drop_drop, DataElement.init,
        DataElement.val_length, DataElement.val_data, DataElement.children]

theorem read_dataset_item_reserved_shape {s : List Nat} {e : DataElement}
    {t : List Nat} (h : read_dataset_item s = (some e, t)) :
    (e.tag = ⟨0xfffe, 0xe000⟩ → e.kind = .item ∧ e.val_repr = none) ∧
    (e.tag = ⟨0xfffe, 0xe00d⟩ → e.kind = .itemDelim ∧ e.val_repr = none) ∧
    (e.tag = ⟨0xfffe, 0xe0dd⟩ → e.kind = .seqDelim ∧ e.val_repr = none) := by
  have hs : s ≠ [] := by
    intro hs; subst hs; simp [read_dataset_item_nil] at h
  simp only [read_dataset_item] at h
  have htd : ¬ s.take 4 = [] := by simp [List.take_eq_nil_iff, hs]
  rw [if_neg htd] at h
  split_ifs at h <;>
      (injection h with hx hy; injection hx with hx; subst hx) <;>
      refine ⟨fun htag => ?_, fun htag => ?_, fun htag => ?_⟩ <;>
      simp_all [DataElement.init, ItemDataElement.init,
        ItemDelimitationElement.init, SequenceDelimitationElement.init,
        DataElement.tag, DataElement.kind, DataElement.val_repr,
        ElementTag.mk.injEq]

theorem find_foldl_eq_filter (tag : ElementTag) :
    ∀ (l : List DataElement) (acc : List DataElement),
      l.foldl (fun elements item =>
        if item.tag = tag then elements ++ [item] else elements) acc =
      acc ++ l.filter (fun e => decide (e.tag = tag)) := by
  intro l
  induction l with
  | nil => intro acc; simp
  | cons x xs ih =>
    intro acc
    by_cases hx : x.tag = tag
    · simp [List.filter_cons, hx, ih]
    · simp [List.filter_cons, hx, ih]

/-- C1: every element returned by `read_dataset` (at any nesting depth)
whose length is undefined has a non-empty children sequence whose last
entry is an Item Delimitation or Sequence Delimitation variant — the
delimiter that terminated the nested read — unless that nested read
exhausted the stream before a delimiter was read: in that case the children
are exactly the dataset read of a suffix of the input, a read that ended
with an empty cursor. -/
theorem C1_undefined_children_end_with_delimiter (s : List Nat)
    (e : DataElement) (he : e ∈ allElemsList (read_dataset s).1)
    (hu : e.is_length_undefined = true) :
    (e.children ≠ [] ∧ endsWithDelimiter e.children = true) ∨
      ∃ u, u <:+ s ∧ read_dataset u = (e.children, []) := by
  rcases read_dataset_fuel_undef_children (s.length + 1) s (by omega) e he
      hu with hd | hex
  · exact Or.inl ⟨endsWithDelimiter_ne_nil hd, hd⟩
  · exact Or.inr hex

theorem C1_witness :
    (c1Elem.children ≠ [] ∧ endsWithDelimiter c1Elem.children = true) ∨
      ∃ u, u <:+ c1Stream ∧ read_dataset u = (c1Elem.children, []) :=
  C1_undefined_children_end_with_delimiter c1Stream c1Elem
    (List.Mem.head _) rfl

/-- C2 (code bug): the element reader does not fail on truncated input.  On
the 2-byte stream `[0x08, 0x00]` (a tag cut in half) it still returns an
element, decoding the missing element number as 0 and the missing length as
0; on a stream whose declared length 4 exceeds the 2 available payload bytes
it returns an element whose `val_data` holds only the 2 bytes actually
present.  The spec requires a failure in both situations. -/
theorem C2_truncated_input_not_rejected :
    read_dataset_item [8, 0] =
      (some (DataElement.init ⟨8, 0⟩ [] 0 (some []) []), []) ∧
    read_dataset_item [8, 0, 0, 0, 85, 76, 4, 0, 1, 2] =
      (some (DataElement.init ⟨8, 0⟩ [85, 76] 4 (some [1, 2]) []), []) :=
  ⟨rfl, rfl⟩

/-- C8: parsing is deterministic — equal input byte streams produce equal
parse results (the embedding of the parser is a pure function of the
stream), and the final cursor is an untouched suffix of the input, so the
parse has no observable effect on the input bytes. -/
theorem C8_parse_deterministic (s1 s2 : List Nat) (h : s1 = s2) :
    read_dataset s1 = read_dataset s2 ∧ (read_dataset s1).2 <:+ s1 := by
  subst h
  exact ⟨rfl, read_dataset_fuel_suffix _ _⟩

theorem C8_witness :
    read_dataset [8, 0] = read_dataset [8, 0] ∧
      (read_dataset [8, 0]).2 <:+ [8, 0] :=
  C8_parse_deterministic [8, 0] [8, 0] rfl

/-- C10: `find_elements_by_tag` returns exactly the elements of the
top-level dataset whose tag equals the given tag, in dataset order (it is
the filter of the top-level list); every returned element is a member of the
top-level dataset, so elements nested inside children are never returned. -/
theorem C10_find_elements_by_tag_filters_top_level (d : DICOM)
    (tag : ElementTag) :
    d.find_elements_by_tag tag =
      d.dataset.filter (fun e => decide (e.tag = tag)) ∧
    ∀ e ∈ d.find_elements_by_tag tag, e ∈ d.dataset := by
  have hf : d.find_elements_by_tag tag =
      d.dataset.filter (fun e => decide (e.tag = tag)) := by
    unfold DICOM.find_elements_by_tag
    simpa using find_foldl_eq_filter tag d.dataset []
  refine ⟨hf, fun e he => ?_⟩
  rw [hf] at he
  exact List.mem_of_mem_filter he

theorem C10_witness : c1Elem ∈ [c1Elem] :=
  (C10_find_elements_by_tag_filters_top_level (DICOM.mk "f" [] [c1Elem])
    ⟨0xfffe, 0xe000⟩).2 c1Elem (List.Mem.head _)

/-- C5 (amended): `load` fails with the invalid-magic error whenever the 4
bytes at offset 128 are not the ASCII marker `DICM`, and no DICOM value is
constructed.  When they are `DICM`, `load` proceeds to read the dataset:
if the dataset read succeeds it returns a DICOM value carrying the path,
the 128-byte preamble verbatim, and that dataset; if the dataset read
raises a VR decode error (the case refuting the original claim, see the
counterexample), that error propagates and no DICOM value is returned. -/
theorem C5_magic_header_check (path : String) (contents : List Nat) :
    ((contents.drop 128).take 4 ≠ DICM_MAGIC →
      loadE path contents = .error "invalid magic header") ∧
    (∀ ds t, (contents.drop 128).take 4 = DICM_MAGIC →
      read_datasetE ((contents.drop 128).drop 4) = .ok (ds, t) →
      loadE path contents = .ok ⟨path, contents.take 128, ds⟩) ∧
    (∀ msg, (contents.drop 128).take 4 = DICM_MAGIC →
      read_datasetE ((contents.drop 128).drop 4) = .error msg →
      loadE path contents = .error msg) := by
  refine ⟨?_, ?_, ?_⟩
  · intro h
    simp [loadE, h]
  · intro ds t h hr
    simp only [List.drop_drop] at hr
    simp [loadE, h, hr]
  · intro msg h hr
    simp only [List.drop_drop] at hr
    simp [loadE, h, hr]

/-- Counterexample to C5 as originally stated: `c5BadVrFile` has the
correct magic bytes at offset 128, yet `load` raises the VR decode error
and returns no DICOM value, because its first generic element carries the
non-UTF-8 VR bytes `0xFF 0xFF`. -/
theorem C5_counterexample :
    (c5BadVrFile.drop 128).take 4 = DICM_MAGIC ∧
    loadE "bad_vr.dcm" c5BadVrFile = .error "invalid VR byte encoding" :=
  ⟨by decide, rfl⟩

theorem C5_witness :
    loadE "bad.dcm" c5BadFile = .error "invalid magic header" ∧
    loadE "good.dcm" c5GoodFile =
      .ok ⟨"good.dcm", c5GoodFile.take 128, []⟩ :=
  ⟨(C5_magic_header_check "bad.dcm" c5BadFile).1 (by decide),
   (C5_magic_header_check "good.dcm" c5GoodFile).2.1 [] [] (by decide)
     rfl⟩

/-- C3: on a sufficiently long stream the element reader consumes exactly
4 + 2 + 2 + length bytes for a generic element with a short-form VR,
4 + 2 + 6 + length bytes for a generic element with a long-form VR (length
taken as 0 for the undefined sentinel), and 4 + 4 + length bytes for a
reserved-tag element; in every case the remaining cursor is exactly the
bytes after the declared extent, so the reader never consumes past what the
length field specifies. -/
theorem C3_exact_consumption :
    (∀ g e len : Nat, ∀ vr data rest : List Nat, g < 65536 → e < 65536 →
      ¬(g = 0xfffe ∧ e = 0xe000) → ¬(g = 0xfffe ∧ e = 0xe00d) →
      ¬(g = 0xfffe ∧ e = 0xe0dd) → vr ∈ VR_EXPLICIT_16BIT_VLF →
      len < 65536 → data.length = len →
      read_dataset_item (tagBytes g e ++ vr ++ le16 len ++ data ++ rest) =
        (some (DataElement.init ⟨g, e⟩ vr len (some data) []), rest) ∧
      (tagBytes g e ++ vr ++ le16 len ++ data).length =
        4 + 2 + 2 + len) ∧
    (∀ g e len : Nat, ∀ vr resv data rest : List Nat, g < 65536 →
      e < 65536 → ¬(g = 0xfffe ∧ e = 0xe000) → ¬(g = 0xfffe ∧ e = 0xe00d) →
      ¬(g = 0xfffe ∧ e = 0xe0dd) → vr.length = 2 → (∀ b ∈ vr, b < 128) →
      vr ∉ VR_EXPLICIT_16BIT_VLF → resv.length = 2 → len < 4294967296 →
      len ≠ UNDEFINED_LENGTH → data.length = len →
      read_dataset_item
          (tagBytes g e ++ vr ++ resv ++ le32 len ++ data ++ rest) =
        (some (DataElement.init ⟨g, e⟩ vr len (some data) []), rest) ∧
      (tagBytes g e ++ vr ++ resv ++ le32 len ++ data).length =
        4 + 2 + 6 + len) ∧
    (∀ g e : Nat, ∀ vr resv rest : List Nat, g < 65536 → e < 65536 →
      ¬(g = 0xfffe ∧ e = 0xe000) → ¬(g = 0xfffe ∧ e = 0xe00d) →
      ¬(g = 0xfffe ∧ e = 0xe0dd) → vr.length = 2 → (∀ b ∈ vr, b < 128) →
      vr ∉ VR_EXPLICIT_16BIT_VLF → resv.length = 2 →
      read_dataset_item
          (tagBytes g e ++ vr ++ resv ++ le32 UNDEFINED_LENGTH ++ rest) =
        (some (DataElement.init ⟨g, e⟩ vr UNDEFINED_LENGTH none []),
          rest) ∧
      (tagBytes g e ++ vr ++ resv ++ le32 UNDEFINED_LENGTH).length =
        4 + 2 + 6 + 0) ∧
    (∀ len : Nat, ∀ data rest : List Nat, len < 4294967296 →
      len ≠ UNDEFINED_LENGTH → data.length = len →
      read_dataset_item (tagBytes 0xfffe 0xe000 ++ le32 len ++ data ++
          rest) =
        (some (ItemDataElement.init len (some data) []), rest) ∧
      read_dataset_item (tagBytes 0xfffe 0xe00d ++ le32 len ++ data ++
          rest) =
        (some (ItemDelimitationElement.init len (some data) []), rest) ∧
      read_dataset_item (tagBytes 0xfffe 0xe0dd ++ le32 len ++ data ++
          rest) =
        (some (SequenceDelimitationElement.init len (some data) []),
          rest) ∧
      (tagBytes 0xfffe 0xe000 ++ le32 len ++ data).length = 4 + 4 + len) :=
  by
  refine ⟨?_, ?_, ?_, ?_⟩
  · intro g e len vr data rest hg he hr1 hr2 hr3 hvr hlen hdata
    have hvr2 : vr.length = 2 := by fin_cases hvr <;> rfl
    refine ⟨read_item_generic_short g e len vr data rest hg he hr1 hr2 hr3
      hvr hlen hdata, ?_⟩
    simp [tagBytes, le16, hvr2, hdata]
    omega
  · intro g e len vr resv data rest hg he hr1 hr2 hr3 hvr2 _hascii hvr
      hresv hlen hnund hdata
    refine ⟨read_item_generic_long g e len vr resv data rest hg he hr1 hr2
      hr3 hvr2 hvr hresv hlen hnund hdata, ?_⟩
    simp [tagBytes, le16, le32, hvr2, hresv, hdata]
    omega
  · intro g e vr resv rest hg he hr1 hr2 hr3 hvr2 _hascii hvr hresv
    refine ⟨read_item_generic_long_undef g e vr resv rest hg he hr1 hr2 hr3
      hvr2 hvr hresv, ?_⟩
    simp [tagBytes, le16, le32, hvr2, hresv]
  · intro len data rest hlen hnund hdata
    refine ⟨read_item_item_defined len data rest hlen hnund hdata,
      read_item_itemDelim_defined len data rest hlen hnund hdata,
      read_item_seqDelim_defined len data rest hlen hnund hdata, ?_⟩
    simp [tagBytes, le16, le32, hdata]
    omega

theorem C3_witness :
    read_dataset_item
        (tagBytes 8 0 ++ [85, 76] ++ le16 4 ++ [1, 2, 3, 4] ++ [9]) =
      (some (DataElement.init ⟨8, 0⟩ [85, 76] 4 (some [1, 2, 3, 4]) []),
        [9]) ∧
    (tagBytes 8 0 ++ [85, 76] ++ le16 4 ++ [1, 2, 3, 4]).length =
      4 + 2 + 2 + 4 :=
  (C3_exact_consumption.1 8 0 4 [85, 76] [1, 2, 3, 4] [9] (by decide)
    (by decide) (by decide) (by decide) (by decide) (by decide) (by decide)
    (by decide))

/-- C4: a generic element whose 2-byte VR is in the 21-member explicit
16-bit set is parsed with a 2-byte little-endian length immediately after
the VR; any other VR is parsed by skipping 2 reserved bytes and reading a
4-byte little-endian length.  In particular VR `UI` with length bytes
`04 00` yields length 4, and VR `OB` with bytes `00 00 04 00 00 00` yields
length 4. -/
theorem C4_vr_selects_length_encoding :
    (∀ g e len : Nat, ∀ vr data rest : List Nat, g < 65536 → e < 65536 →
      ¬(g = 0xfffe ∧ e = 0xe000) → ¬(g = 0xfffe ∧ e = 0xe00d) →
      ¬(g = 0xfffe ∧ e = 0xe0dd) → vr ∈ VR_EXPLICIT_16BIT_VLF →
      len < 65536 → data.length = len →
      read_dataset_item (tagBytes g e ++ vr ++ le16 len ++ data ++ rest) =
        (some (DataElement.init ⟨g, e⟩ vr len (some data) []), rest)) ∧
    (∀ g e len : Nat, ∀ vr resv data rest : List Nat, g < 65536 →
      e < 65536 → ¬(g = 0xfffe ∧ e = 0xe000) → ¬(g = 0xfffe ∧ e = 0xe00d) →
      ¬(g = 0xfffe ∧ e = 0xe0dd) → vr.length = 2 → (∀ b ∈ vr, b < 128) →
      vr ∉ VR_EXPLICIT_16BIT_VLF → resv.length = 2 → len < 4294967296 →
      len ≠ UNDEFINED_LENGTH → data.length = len →
      read_dataset_item
          (tagBytes g e ++ vr ++ resv ++ le32 len ++ data ++ rest) =
        (some (DataElement.init ⟨g, e⟩ vr len (some data) []), rest)) ∧
    read_dataset_item
        ([8, 0, 16, 0] ++ [85, 73] ++ [4, 0] ++ [1, 2, 3, 4]) =
      (some (DataElement.init ⟨8, 16⟩ [85, 73] 4 (some [1, 2, 3, 4]) []),
        []) ∧
    read_dataset_item
        ([8, 0, 16, 0] ++ [79, 66] ++ [0, 0] ++ [4, 0, 0, 0] ++
          [1, 2, 3, 4]) =
      (some (DataElement.init ⟨8, 16⟩ [79, 66] 4 (some [1, 2, 3, 4]) []),
        []) :=
  ⟨fun g e len vr data rest hg he hr1 hr2 hr3 hvr hlen hdata =>
    read_item_generic_short g e len vr data rest hg he hr1 hr2 hr3 hvr hlen
      hdata,
   fun g e len vr resv data rest hg he hr1 hr2 hr3 hvr2 _hascii hvr hresv
      hlen hnund hdata =>
    read_item_generic_long g e len vr resv data rest hg he hr1 hr2 hr3 hvr2
      hvr hresv hlen hnund hdata,
   rfl, rfl⟩

theorem C4_witness :
    read_dataset_item
        (tagBytes 8 0 ++ [65, 69] ++ le16 2 ++ [5, 6] ++ []) =
      (some (DataElement.init ⟨8, 0⟩ [65, 69] 2 (some [5, 6]) []), []) ∧
    read_dataset_item
        (tagBytes 8 0 ++ [79, 66] ++ [0, 0] ++ le32 2 ++ [5, 6] ++ []) =
      (some (DataElement.init ⟨8, 0⟩ [79, 66] 2 (some [5, 6]) []), []) :=
  ⟨C4_vr_selects_length_encoding.1 8 0 2 [65, 69] [5, 6] [] (by decide)
      (by decide) (by decide) (by decide) (by decide) (by decide)
      (by decide) (by decide),
   C4_vr_selects_length_encoding.2.1 8 0 2 [79, 66] [0, 0] [5, 6] []
      (by decide) (by decide) (by decide) (by decide) (by decide)
      (by decide) (by decide) (by decide) (by decide) (by decide)
      (by decide) (by decide)⟩

/-- C6: any parsed element whose tag is one of the three reserved tags is
the corresponding structural variant — never a generic element — and its
stored VR is absent; on the wire, the 4-byte little-endian length follows
the reserved tag directly, with no VR field read. -/
theorem C6_reserved_tags_structural :
    (∀ s : List Nat, ∀ e : DataElement, ∀ t : List Nat,
      read_dataset_item s = (some e, t) →
      (e.tag = ⟨0xfffe, 0xe000⟩ → e.kind = .item ∧ e.val_repr = none) ∧
      (e.tag = ⟨0xfffe, 0xe00d⟩ →
        e.kind = .itemDelim ∧ e.val_repr = none) ∧
      (e.tag = ⟨0xfffe, 0xe0dd⟩ →
        e.kind = .seqDelim ∧ e.val_repr = none)) ∧
    (∀ len : Nat, ∀ data rest : List Nat, len < 4294967296 →
      len ≠ UNDEFINED_LENGTH → data.length = len →
      read_dataset_item
          (tagBytes 0xfffe 0xe000 ++ le32 len ++ data ++ rest) =
        (some (ItemDataElement.init len (some data) []), rest) ∧
      read_dataset_item
          (tagBytes 0xfffe 0xe00d ++ le32 len ++ data ++ rest) =
        (some (ItemDelimitationElement.init len (some data) []), rest) ∧
      read_dataset_item
          (tagBytes 0xfffe 0xe0dd ++ le32 len ++ data ++ rest) =
        (some (SequenceDelimitationElement.init len (some data) []),
          rest)) ∧
    (∀ rest : List Nat,
      read_dataset_item
          (tagBytes 0xfffe 0xe000 ++ le32 UNDEFINED_LENGTH ++ rest) =
        (some (ItemDataElement.init UNDEFINED_LENGTH none []), rest) ∧
      read_dataset_item
          (tagBytes 0xfffe 0xe00d ++ le32 UNDEFINED_LENGTH ++ rest) =
        (some (ItemDelimitationElement.init UNDEFINED_LENGTH none []),
          rest) ∧
      read_dataset_item
          (tagBytes 0xfffe 0xe0dd ++ le32 UNDEFINED_LENGTH ++ rest) =
        (some (SequenceDelimitationElement.init UNDEFINED_LENGTH none []),
          rest)) :=
  ⟨fun _ _ _ h => read_dataset_item_reserved_shape h,
   fun len data rest hlen hnund hdata =>
    ⟨read_item_item_defined len data rest hlen hnund hdata,
     read_item_itemDelim_defined len data rest hlen hnund hdata,
     read_item_seqDelim_defined len data rest hlen hnund hdata⟩,
   fun rest =>
    ⟨read_item_item_undef rest, read_item_itemDelim_undef rest,
     read_item_seqDelim_undef rest⟩⟩

theorem C6_witness :
    (ItemDataElement.init 0 (some []) []).kind = EKind.item ∧
      (ItemDataElement.init 0 (some []) []).val_repr = none :=
  ((C6_reserved_tags_structural.1 [254, 255, 0, 224, 0, 0, 0, 0]
      (ItemDataElement.init 0 (some []) []) [] rfl).1) rfl

/-- C7: the stored `val_length` of every element — whether built by a
constructor or produced anywhere in a parse tree — is never the literal
sentinel `0xFFFFFFFF`: a wire length equal to the sentinel is normalized to
the absent (`none`) marker at construction time, and `is_length_undefined`
is true exactly for those elements. -/
theorem C7_val_length_normalized :
    (∀ tag : ElementTag, ∀ vr : List Nat, ∀ l : Nat,
      ∀ d : Option (List Nat), ∀ cs : List DataElement,
      (DataElement.init tag vr l d cs).val_length ≠
          some UNDEFINED_LENGTH ∧
      ((DataElement.init tag vr l d cs).is_length_undefined = true ↔
        l = UNDEFINED_LENGTH)) ∧
    (∀ l : Nat, ∀ d : Option (List Nat), ∀ cs : List DataElement,
      (ItemDataElement.init l d cs).val_length ≠ some UNDEFINED_LENGTH ∧
      ((ItemDataElement.init l d cs).is_length_undefined = true ↔
        l = UNDEFINED_LENGTH)) ∧
    (∀ l : Nat, ∀ d : Option (List Nat), ∀ cs : List DataElement,
      (ItemDelimitationElement.init l d cs).val_length ≠
          some UNDEFINED_LENGTH ∧
      ((ItemDelimitationElement.init l d cs).is_length_undefined = true ↔
        l = UNDEFINED_LENGTH)) ∧
    (∀ l : Nat, ∀ d : Option (List Nat), ∀ cs : List DataElement,
      (SequenceDelimitationElement.init l d cs).val_length ≠
          some UNDEFINED_LENGTH ∧
      ((SequenceDelimitationElement.init l d cs).is_length_undefined =
          true ↔ l = UNDEFINED_LENGTH)) ∧
    (∀ s : List Nat, ∀ e ∈ allElemsList (read_dataset s).1,
      e.val_length ≠ some UNDEFINED_LENGTH ∧
      (e.is_length_undefined = true ↔ e.val_length = none)) := by
  refine ⟨?_, ?_, ?_, ?_, ?_⟩
  · intro tag vr l d cs
    constructor
    · simp only [DataElement.init, DataElement.val_length]
      split_ifs <;> simp_all
    · simp only [DataElement.init, DataElement.is_length_undefined,
        DataElement.val_length]
      split_ifs <;> simp_all
  · intro l d cs
    constructor
    · simp only [ItemDataElement.init, DataElement.val_length]
      split_ifs <;> simp_all
    · simp only [ItemDataElement.init, DataElement.is_length_undefined,
        DataElement.val_length]
      split_ifs <;> simp_all
  · intro l d cs
    constructor
    · simp only [ItemDelimitationElement.init, DataElement.val_length]
      split_ifs <;> simp_all
    · simp only [ItemDelimitationElement.init,
        DataElement.is_length_undefined, DataElement.val_length]
      split_ifs <;> simp_all
  · intro l d cs
    constructor
    · simp only [SequenceDelimitationElement.init, DataElement.val_length]
      split_ifs <;> simp_all
    · simp only [SequenceDelimitationElement.init,
        DataElement.is_length_undefined, DataElement.val_length]
      split_ifs <;> simp_all
  · intro s e he
    obtain ⟨s₀, e₀, t₀, hsfx, hread, horig⟩ :=
      read_dataset_fuel_origin (s.length + 1) s (by omega) e he
    have hns := read_dataset_item_not_sentinel hread
    rcases horig with rfl | ⟨hu, cs, rfl⟩
    · exact ⟨hns, is_length_undefined_iff _⟩
    · refine ⟨?_, is_length_undefined_iff _⟩
      rw [add_children_val_length]
      exact hns

theorem C7_witness :
    c1Elem.val_length ≠ some UNDEFINED_LENGTH ∧
      (c1Elem.is_length_undefined = true ↔ c1Elem.val_length = none) :=
  C7_val_length_normalized.2.2.2.2 c1Stream c1Elem (List.Mem.head _)

/-- C9: in any parse of a valid byte stream, a generic element whose VR is
in the 21-member explicit 16-bit set always has a defined length (its
16-bit length can never equal the 32-bit sentinel), an eagerly read
`val_data` payload, and an empty children sequence. -/
theorem C9_short_vr_never_undefined (s : List Nat)
    (hb : ∀ b ∈ s, b < 256) (e : DataElement)
    (he : e ∈ allElemsList (read_dataset s).1) (vr : List Nat)
    (hvr : e.val_repr = some vr) (hmem : vr ∈ VR_EXPLICIT_16BIT_VLF) :
    e.val_length.isSome ∧ e.val_data.isSome ∧ e.children = [] := by
  obtain ⟨s₀, e₀, t₀, hsfx, hread, horig⟩ :=
    read_dataset_fuel_origin (s.length + 1) s (by omega) e he
  have hb₀ : ∀ b ∈ s₀, b < 256 := fun b hbm => hb b (hsfx.subset hbm)
  rcases horig with rfl | ⟨hu, cs, rfl⟩
  · exact read_dataset_item_short_vr hb₀ hread hvr hmem
  · exfalso
    have h1 := read_dataset_item_short_vr hb₀ hread
      (by simpa using hvr) hmem
    have h2 := (is_length_undefined_iff e₀).mp hu
    rw [h2] at h1
    simp at h1

theorem C9_witness :
    c9Elem.val_length.isSome ∧ c9Elem.val_data.isSome ∧
      c9Elem.children = [] :=
  C9_short_vr_never_undefined c9Stream (by decide) c9Elem
    (List.Mem.head _) [85, 76] rfl (by decide)

theorem read_dataset_itemE_ok {s : List Nat}
    {r : Option DataElement × List Nat}
    (h : read_dataset_itemE s = .ok r) : read_dataset_item s = r := by
  simp only [read_dataset_itemE, read_dataset_item] at h ⊢
  split_ifs at h ⊢ <;> simp_all

theorem read_dataset_fuelE_ok :
    ∀ fuel s r, read_dataset_fuelE fuel s = .ok r →
      read_dataset_fuel fuel s = r := by
  intro fuel
  induction fuel with
  | zero =>
    intro s r h
    simp only [read_dataset_fuelE] at h
    simpa [read_dataset_fuel] using Except.ok.inj h
  | succ fuel ih =>
    intro s r h
    cases hiE : read_dataset_itemE s with
    | error msg => simp [read_dataset_fuelE, hiE] at h
    | ok p =>
      have hi : read_dataset_item s = p := read_dataset_itemE_ok hiE
      rcases p with ⟨o, s1⟩
      cases o with
      | none =>
        simp only [read_dataset_fuelE, hiE] at h
        simp only [read_dataset_fuel, hi]
        exact Except.ok.inj h
      | some item =>
        simp only [read_dataset_fuelE, hiE] at h
        simp only [read_dataset_fuel, hi]
        by_cases h1 : item.is_length_undefined = true
        · rw [if_pos h1] at h ⊢
          cases hr : read_dataset_fuelE fuel s1 with
          | error msg => simp [hr] at h
          | ok rr =>
            simp only [hr] at h
            rw [ih s1 rr hr]
            by_cases h2 : isDelimiter (item.add_children rr.1) = true
            · rw [if_pos h2] at h ⊢
              exact Except.ok.inj h
            · rw [if_neg h2] at h ⊢
              cases hr2 : read_dataset_fuelE fuel rr.2 with
              | error msg => simp [hr2] at h
              | ok rr2 =>
                simp only [hr2] at h
                rw [ih rr.2 rr2 hr2]
                exact Except.ok.inj h
        · rw [if_neg h1] at h ⊢
          by_cases h3 : isDelimiter item = true
          · rw [if_pos h3] at h ⊢
            exact Except.ok.inj h
          · rw [if_neg h3] at h ⊢
            cases hr : read_dataset_fuelE fuel s1 with
            | error msg => simp [hr] at h
            | ok rr =>
              simp only [hr] at h
              rw [ih s1 rr hr]
              exact Except.ok.inj h
